import Mathlib

/-!
Verification of the interactive canvas subsystem of the desingUtil repository.
The geometry engine (ImageCanvas) and its host pane (EditPane) are embedded
shallowly: rectangles are records of rationals, pointer and container
coordinates are rationals, and the effectful canvas-export methods are
embedded as pure functions emitting the list of canvas commands they issue.
-/

/-- Display-space rectangle, as in the ImageCanvas Rect interface. -/
structure Rect where
  x : ℚ
  y : ℚ
  width : ℚ
  height : ℚ
deriving DecidableEq, Repr

/-- The HANDLE_SIZE constant of ImageCanvas. -/
def HANDLE_SIZE : ℚ := 12

/-- Embeds fitImageToContainer: aspect-preserving, centered fit of an image
with natural size (naturalWidth, naturalHeight) into a container of size
(containerWidth, containerHeight). -/
def fitImageToContainer (containerWidth containerHeight naturalWidth naturalHeight : ℚ) : Rect :=
  let imageR := naturalWidth / naturalHeight
  let fitW0 := containerWidth
  let fitH0 := containerWidth / imageR
  let fitW := if fitH0 > containerHeight then containerHeight * imageR else fitW0
  let fitH := if fitH0 > containerHeight then containerHeight else fitH0
  { x := (containerWidth - fitW) / 2
    y := (containerHeight - fitH) / 2
    width := fitW
    height := fitH }

/-- Embeds the JavaScript single-character String.prototype.includes test
used on handle names (all needles in handleMouseMove are single characters). -/
def strIncludes (s : String) (c : Char) : Bool := s.data.contains c

/-- Embeds the setCanvasRect updater of handleMouseMove: one drag update of
the expansion rectangle for an active handle name (a string tested with
includes) and a pointer position (px, py); the minimum-size clamp applies
max with HANDLE_SIZE * 2 to width and height only. -/
def dragUpdate (handle : String) (prev : Rect) (px py : ℚ) : Rect :=
  let w1 := if strIncludes handle 'r' then px - prev.x else prev.width
  let w2 := if strIncludes handle 'l' then w1 + (prev.x - px) else w1
  let x2 := if strIncludes handle 'l' then px else prev.x
  let h1 := if strIncludes handle 'b' then py - prev.y else prev.height
  let h2 := if strIncludes handle 't' then h1 + (prev.y - py) else h1
  let y2 := if strIncludes handle 't' then py else prev.y
  { x := x2, y := y2, width := max w2 (HANDLE_SIZE * 2), height := max h2 (HANDLE_SIZE * 2) }

/-- A sequence of drag updates (handle, pointerX, pointerY) applied in order. -/
def applyDrags (init : Rect) (moves : List (String × ℚ × ℚ)) : Rect :=
  moves.foldl (fun r m => dragUpdate m.1 r m.2.1 m.2.2) init

lemma dragUpdate_width_min (handle : String) (prev : Rect) (px py : ℚ) :
    2 * HANDLE_SIZE ≤ (dragUpdate handle prev px py).width := by
  simp only [dragUpdate, HANDLE_SIZE]
  rw [mul_comm]
  exact le_max_right _ _

lemma dragUpdate_height_min (handle : String) (prev : Rect) (px py : ℚ) :
    2 * HANDLE_SIZE ≤ (dragUpdate handle prev px py).height := by
  simp only [dragUpdate, HANDLE_SIZE]
  rw [mul_comm]
  exact le_max_right _ _

lemma applyDrags_cons_min (rest : List (String × ℚ × ℚ)) :
    ∀ (m : String × ℚ × ℚ) (init : Rect),
      2 * HANDLE_SIZE ≤ (applyDrags init (m :: rest)).width ∧
        2 * HANDLE_SIZE ≤ (applyDrags init (m :: rest)).height := by
  induction rest with
  | nil =>
    intro m init
    exact ⟨dragUpdate_width_min _ _ _ _, dragUpdate_height_min _ _ _ _⟩
  | cons m2 rest2 ih =>
    intro m init
    exact ih m2 (dragUpdate m.1 init m.2.1 m.2.2)

lemma applyDrags_min_size (moves : List (String × ℚ × ℚ)) (init : Rect) (hne : moves ≠ []) :
    2 * HANDLE_SIZE ≤ (applyDrags init moves).width ∧
      2 * HANDLE_SIZE ≤ (applyDrags init moves).height := by
  obtain ⟨m, rest, rfl⟩ := List.exists_cons_of_ne_nil hne
  exact applyDrags_cons_min rest m init

lemma strIncludes_br : strIncludes "br" 'r' = true ∧ strIncludes "br" 'l' = false ∧
    strIncludes "br" 'b' = true ∧ strIncludes "br" 't' = false := by decide

lemma dragUpdate_br_sixty : dragUpdate "br" ⟨0, 0, 100, 100⟩ 60 60 = ⟨0, 0, 60, 60⟩ := by
  obtain ⟨h1, h2, h3, h4⟩ := strIncludes_br
  simp only [dragUpdate, h1, h2, h3, h4, if_true, if_false]
  norm_num [HANDLE_SIZE, Rect.mk.injEq]

lemma dragUpdate_br_ten : dragUpdate "br" ⟨0, 0, 60, 60⟩ 10 10 = ⟨0, 0, 24, 24⟩ := by
  obtain ⟨h1, h2, h3, h4⟩ := strIncludes_br
  simp only [dragUpdate, h1, h2, h3, h4, if_true, if_false]
  norm_num [HANDLE_SIZE, Rect.mk.injEq]

/-- Embeds setAspectRatio of ImageCanvas, applied to the parsed components
(w, h) of the preset ratio string, returning the new canvasRect computed
from the current imageDrawRect. -/
def setAspectRatioRect (imageDrawRect : Rect) (w h : ℚ) : Rect :=
  let targetR := w / h
  let imgR := imageDrawRect.width / imageDrawRect.height
  let newW := if targetR > imgR then imageDrawRect.height * targetR else imageDrawRect.width
  let newH := if targetR > imgR then imageDrawRect.height else imageDrawRect.width / targetR
  { x := imageDrawRect.x - (newW - imageDrawRect.width) / 2
    y := imageDrawRect.y - (newH - imageDrawRect.height) / 2
    width := newW
    height := newH }

/-- Embeds setExplicitCanvasSize of ImageCanvas: the requested size centered
in the container, with no clamping of width or height. -/
def setExplicitCanvasSize (containerWidth containerHeight width height : ℚ) : Rect :=
  { x := (containerWidth - width) / 2
    y := (containerHeight - height) / 2
    width := width
    height := height }

/-- Host-visible state touched by handleSetCanvasSize in EditPane: the canvas
rectangle held by the ImageCanvas and the error signal of the pane. -/
structure HostState where
  canvasRect : Rect
  error : Option String
deriving DecidableEq

/-- Embeds handleSetCanvasSize of EditPane: the explicit size entry is applied
through setExplicitCanvasSize only when both entries are positive; otherwise
nothing happens, and the error signal is never written on either path. -/
def handleSetCanvasSize (containerWidth containerHeight resizeWidth resizeHeight : ℚ)
    (s : HostState) : HostState :=
  if 0 < resizeWidth ∧ 0 < resizeHeight then
    { s with canvasRect := setExplicitCanvasSize containerWidth containerHeight resizeWidth resizeHeight }
  else s

/-- The EditTool union type of the repository. -/
inductive EditTool
  | inpainting
  | expand
  | resize
  | background
  | relighting
  | skyReplace
  | textRemove
  | upscale
deriving DecidableEq

/-- Embeds the JavaScript truthiness test on prompt.trim(): the prompt is
blank exactly when every character is whitespace. -/
def promptIsBlank (s : String) : Bool := s.data.all Char.isWhitespace

/-- EditPane state relevant to tool switching and submit-for-edit: the active
tool, the MaskLayer content (the list of stamped mask points held by the
mask canvas), the inpainting prompt, and the current image. -/
structure EditPaneState where
  activeTool : Option EditTool
  mask : List (ℚ × ℚ)
  prompt : String
  image : Option String
deriving DecidableEq

/-- Embeds handleToggleTool of EditPane: clicking a tool header toggles the
active tool; no other state is touched. -/
def handleToggleTool (s : EditPaneState) (tool : EditTool) : EditPaneState :=
  { s with activeTool := if s.activeTool = some tool then none else some tool }

/-- Embeds the successful completion of handleEdit in EditPane: guarded on a
non-blank prompt and a loaded image, the external call returns result, after
which the mask is cleared, the prompt reset and the image replaced. -/
def handleEditSuccess (s : EditPaneState) (result : String) : EditPaneState :=
  if promptIsBlank s.prompt then s
  else if s.image = none then s
  else { s with mask := [], prompt := "", image := some result }

/-- A radial-gradient brush stamp as issued by drawSoftCircle: center, radius
and the ordered gradient stops (offset, alpha) of the magenta color. -/
structure SoftCircleStamp where
  centerX : ℚ
  centerY : ℚ
  radius : ℚ
  stops : List (ℚ × ℚ)
deriving DecidableEq

/-- Embeds drawSoftCircle of ImageCanvas: radius brushSize / 2 and the three
gradient stops issued with addColorStop - solid at 0, solid at
max 0 brushHardness, transparent at 1. -/
def drawSoftCircle (brushSize brushOpacity brushHardness x y : ℚ) : SoftCircleStamp :=
  { centerX := x
    centerY := y
    radius := brushSize / 2
    stops := [(0, brushOpacity), (max 0 brushHardness, brushOpacity), (1, 0)] }

/-- The per-iteration step of the stamping loop in the draw handler. -/
def strokeStep (brushSize : ℚ) : ℚ := max 1 (brushSize / 10)

/-- The stamping for-loop of the draw handler: starting at i, stamp while
i < dist, advancing by the step s. The fuel argument bounds the recursion
depth; drawStampCount passes fuel that can never be exhausted because the
step is at least 1. -/
def drawLoopAux : ℕ → ℚ → ℚ → ℚ → ℕ
  | 0, _, _, _ => 0
  | fuel + 1, i, dist, s => if i < dist then drawLoopAux fuel (i + s) dist s + 1 else 0

/-- Embeds the stroke-segment stamping of the draw handler of ImageCanvas:
the number of drawSoftCircle stamps issued for a segment of length dist -
the for-loop stamps plus the final stamp at the end point. -/
def drawStampCount (brushSize dist : ℚ) : ℕ :=
  drawLoopAux (⌈dist⌉₊ + 1) 0 dist (strokeStep brushSize) + 1

/-- Embeds the JavaScript String.prototype.startsWith test used on the src
data URI in getCompositeImageWithMask. -/
def strStartsWith (s pre : String) : Bool := s.data.take pre.data.length == pre.data

/-- The two bitmaps a canvas command can draw from. -/
inductive DrawSource
  | image
  | mask
deriving DecidableEq

/-- A 2d-context command issued while producing an export. -/
inductive CanvasOp
  | drawImageAt (source : DrawSource) (dx dy : ℚ)
  | drawImageScaled (source : DrawSource) (dx dy dw dh : ℚ)
  | scale (sx sy : ℚ)
  | save
  | restore
deriving DecidableEq

/-- An export artifact: output canvas size, the commands drawn into it, and
the MIME type passed to toDataURL. -/
structure ExportResult where
  canvasWidth : ℚ
  canvasHeight : ℚ
  ops : List CanvasOp
  mimeType : String
deriving DecidableEq

/-- Embeds getCompositeImageWithMask of ImageCanvas: output canvas of the
image's natural size, the image drawn at the origin at natural size, then the
mask drawn under a scale of (naturalWidth / imageDrawRect.width,
naturalHeight / imageDrawRect.height) at offset (-imageDrawRect.x,
-imageDrawRect.y); MIME type jpeg when src is a jpeg data URI, else png. -/
def getCompositeImageWithMask (naturalWidth naturalHeight : ℚ) (imageDrawRect : Rect)
    (src : String) : ExportResult :=
  { canvasWidth := naturalWidth
    canvasHeight := naturalHeight
    ops := [CanvasOp.drawImageAt DrawSource.image 0 0,
            CanvasOp.save,
            CanvasOp.scale (naturalWidth / imageDrawRect.width) (naturalHeight / imageDrawRect.height),
            CanvasOp.drawImageAt DrawSource.mask (-imageDrawRect.x) (-imageDrawRect.y),
            CanvasOp.restore]
    mimeType := if strStartsWith src "data:image/jpeg" then "image/jpeg" else "image/png" }

/-- Embeds getFinalExpandedImage of ImageCanvas: output canvas of the size of
canvasRect, with the source image drawn at (imageDrawRect.x - canvasRect.x,
imageDrawRect.y - canvasRect.y) at size imageDrawRect.width by
imageDrawRect.height; MIME type always png. -/
def getFinalExpandedImage (imageDrawRect canvasRect : Rect) : ExportResult :=
  { canvasWidth := canvasRect.width
    canvasHeight := canvasRect.height
    ops := [CanvasOp.drawImageScaled DrawSource.image (imageDrawRect.x - canvasRect.x)
              (imageDrawRect.y - canvasRect.y) imageDrawRect.width imageDrawRect.height]
    mimeType := "image/png" }

/-- Whether a canvas command reads from the MaskLayer bitmap. -/
def opUsesMask : CanvasOp → Bool
  | CanvasOp.drawImageAt DrawSource.mask _ _ => true
  | CanvasOp.drawImageScaled DrawSource.mask _ _ _ _ => true
  | _ => false

lemma strIncludes_l : strIncludes "l" 'r' = false ∧ strIncludes "l" 'l' = true ∧
    strIncludes "l" 'b' = false ∧ strIncludes "l" 't' = false := by decide

/-- C1: after any nonempty sequence of pointer-drag updates on any of the
handles, the expansion rectangle satisfies width >= 2 * HANDLE_SIZE and
height >= 2 * HANDLE_SIZE; moreover from canvasRect = (0, 0, 100, 100),
dragging handle br to (60, 60) yields (0, 0, 60, 60), and then dragging br
to (10, 10) yields width 24 and height 24. -/
theorem drag_min_size_invariant (moves : List (String × ℚ × ℚ)) (init : Rect)
    (hne : moves ≠ []) :
    2 * HANDLE_SIZE ≤ (applyDrags init moves).width ∧
    2 * HANDLE_SIZE ≤ (applyDrags init moves).height ∧
    applyDrags ⟨0, 0, 100, 100⟩ [("br", 60, 60)] = ⟨0, 0, 60, 60⟩ ∧
    applyDrags ⟨0, 0, 100, 100⟩ [("br", 60, 60), ("br", 10, 10)] = ⟨0, 0, 24, 24⟩ := by
  refine ⟨(applyDrags_min_size moves init hne).1, (applyDrags_min_size moves init hne).2, ?_, ?_⟩
  · exact dragUpdate_br_sixty
  · have h2 : applyDrags ⟨0, 0, 100, 100⟩ [("br", 60, 60), ("br", 10, 10)] =
        dragUpdate "br" (dragUpdate "br" ⟨0, 0, 100, 100⟩ 60 60) 10 10 := rfl
    rw [h2, dragUpdate_br_sixty, dragUpdate_br_ten]

/-- Witness for C1 at the concrete drag sequence of the scenario. -/
theorem drag_min_size_invariant_witness :
    2 * HANDLE_SIZE ≤ (applyDrags ⟨0, 0, 100, 100⟩ [("br", 10, 10)]).width ∧
    2 * HANDLE_SIZE ≤ (applyDrags ⟨0, 0, 100, 100⟩ [("br", 10, 10)]).height ∧
    applyDrags ⟨0, 0, 100, 100⟩ [("br", 60, 60)] = ⟨0, 0, 60, 60⟩ ∧
    applyDrags ⟨0, 0, 100, 100⟩ [("br", 60, 60), ("br", 10, 10)] = ⟨0, 0, 24, 24⟩ :=
  drag_min_size_invariant [("br", 10, 10)] ⟨0, 0, 100, 100⟩ (by decide)

/-- C9: a drag update on a handle whose name includes the character l
(respectively t) sets canvasRect.x (respectively canvasRect.y) to the
pointer position unconditionally, and otherwise leaves it unchanged; the
minimum-size clamp touches only width and height, so dragging handle l to
pointer x = 200 on (0, 0, 100, 100) translates x to 200 while the width is
pinned at 2 * HANDLE_SIZE. -/
theorem drag_origin_follows_pointer (handle : String) (prev : Rect) (px py : ℚ) :
    (dragUpdate handle prev px py).x = (if strIncludes handle 'l' then px else prev.x) ∧
    (dragUpdate handle prev px py).y = (if strIncludes handle 't' then py else prev.y) ∧
    (dragUpdate "l" ⟨0, 0, 100, 100⟩ 200 300).x = 200 ∧
    (dragUpdate "l" ⟨0, 0, 100, 100⟩ 200 300).width = 2 * HANDLE_SIZE := by
  obtain ⟨g1, g2, g3, g4⟩ := strIncludes_l
  refine ⟨rfl, rfl, ?_, ?_⟩
  · simp only [dragUpdate, g1, g2, g3, g4, if_true, if_false]
  · simp only [dragUpdate, g1, g2, g3, g4, if_true, if_false]
    norm_num [HANDLE_SIZE]

/-- C5 counterexample: an explicit numeric size entry of 10 by 10 - positive
but below 2 * HANDLE_SIZE - is applied to canvasRect unchanged rather than
rejected, and no validation signal reaches the host (error stays none). -/
theorem explicit_size_below_min_applied :
    (handleSetCanvasSize 400 400 10 10 ⟨⟨0, 0, 100, 100⟩, none⟩).canvasRect = ⟨195, 195, 10, 10⟩ ∧
    (handleSetCanvasSize 400 400 10 10 ⟨⟨0, 0, 100, 100⟩, none⟩).canvasRect.width < 2 * HANDLE_SIZE ∧
    (handleSetCanvasSize 400 400 10 10 ⟨⟨0, 0, 100, 100⟩, none⟩).error = none := by
  norm_num [handleSetCanvasSize, setExplicitCanvasSize, HANDLE_SIZE, Rect.mk.injEq]

/-- C5 amended: explicit numeric size entry is silently ignored (state
unchanged, no validation signal) when width or height is non-positive, and
applied verbatim - without any minimum-size clamping and still without any
error signal - when both are positive; only drag gestures clamp, silently,
to 2 * HANDLE_SIZE per axis. -/
theorem explicit_size_validation_behavior
    (containerWidth containerHeight w h : ℚ) (s : HostState) :
    (¬(0 < w ∧ 0 < h) → handleSetCanvasSize containerWidth containerHeight w h s = s) ∧
    (0 < w → 0 < h →
      (handleSetCanvasSize containerWidth containerHeight w h s).canvasRect.width = w ∧
      (handleSetCanvasSize containerWidth containerHeight w h s).canvasRect.height = h) ∧
    (handleSetCanvasSize containerWidth containerHeight w h s).error = s.error ∧
    (∀ handle prev px py, 2 * HANDLE_SIZE ≤ (dragUpdate handle prev px py).width ∧
      2 * HANDLE_SIZE ≤ (dragUpdate handle prev px py).height) := by
  refine ⟨?_, ?_, ?_, fun handle prev px py =>
    ⟨dragUpdate_width_min handle prev px py, dragUpdate_height_min handle prev px py⟩⟩
  · intro hneg
    simp [handleSetCanvasSize, hneg]
  · intro hw hh
    simp [handleSetCanvasSize, hw, hh, setExplicitCanvasSize]
  · by_cases hc : 0 < w ∧ 0 < h <;> simp [handleSetCanvasSize, hc]

/-- Witness for C5 amended at concrete inputs: a non-positive entry is a
no-op and a positive entry is applied. -/
theorem explicit_size_validation_behavior_witness :
    handleSetCanvasSize 400 400 0 10 ⟨⟨0, 0, 100, 100⟩, none⟩ = ⟨⟨0, 0, 100, 100⟩, none⟩ ∧
    (handleSetCanvasSize 400 400 50 40 ⟨⟨0, 0, 100, 100⟩, none⟩).canvasRect.width = 50 ∧
    (handleSetCanvasSize 400 400 50 40 ⟨⟨0, 0, 100, 100⟩, none⟩).canvasRect.height = 40 :=
  ⟨(explicit_size_validation_behavior 400 400 0 10 ⟨⟨0, 0, 100, 100⟩, none⟩).1 (by norm_num),
   (explicit_size_validation_behavior 400 400 50 40 ⟨⟨0, 0, 100, 100⟩, none⟩).2.1
     (by norm_num) (by norm_num)⟩

/-- C2: for positive container size (Wc, Hc) and positive image natural size
(Wi, Hi), fitImageToContainer returns a rectangle with exact aspect ratio
Wi / Hi, fully contained in the container and centered in it; the 800 by 600
image in a 400 by 400 container yields (0, 50, 400, 300). -/
lemma fit_scenario : fitImageToContainer 400 400 800 600 = ⟨0, 50, 400, 300⟩ := by
  norm_num [fitImageToContainer, Rect.mk.injEq]

lemma fit_general (Wc Hc Wi Hi : ℚ)
    (hWc : 0 < Wc) (hHc : 0 < Hc) (hWi : 0 < Wi) (hHi : 0 < Hi) :
    (fitImageToContainer Wc Hc Wi Hi).width / (fitImageToContainer Wc Hc Wi Hi).height = Wi / Hi ∧
    0 ≤ (fitImageToContainer Wc Hc Wi Hi).x ∧
    0 ≤ (fitImageToContainer Wc Hc Wi Hi).y ∧
    (fitImageToContainer Wc Hc Wi Hi).x + (fitImageToContainer Wc Hc Wi Hi).width ≤ Wc ∧
    (fitImageToContainer Wc Hc Wi Hi).y + (fitImageToContainer Wc Hc Wi Hi).height ≤ Hc ∧
    (fitImageToContainer Wc Hc Wi Hi).x = (Wc - (fitImageToContainer Wc Hc Wi Hi).width) / 2 ∧
    (fitImageToContainer Wc Hc Wi Hi).y = (Hc - (fitImageToContainer Wc Hc Wi Hi).height) / 2 := by
  have hr : 0 < Wi / Hi := div_pos hWi hHi
  have hWc0 : Wc ≠ 0 := ne_of_gt hWc
  have hr0 : Wi / Hi ≠ 0 := ne_of_gt hr
  have hHc0 : Hc ≠ 0 := ne_of_gt hHc
  simp only [fitImageToContainer]
  split_ifs with hcase
  · -- candidate height exceeds the container: height = Hc, width = Hc * (Wi / Hi)
    have hwle : Hc * (Wi / Hi) < Wc := (lt_div_iff₀ hr).mp hcase
    refine ⟨?_, by linarith, by norm_num, by linarith, by linarith, by trivial, by trivial⟩
    field_simp
    ring
  · -- candidate fits: width = Wc, height = Wc / (Wi / Hi)
    have hhle : Wc / (Wi / Hi) ≤ Hc := not_lt.mp hcase
    have hhpos : 0 < Wc / (Wi / Hi) := div_pos hWc hr
    refine ⟨?_, by norm_num, by linarith, by linarith, by linarith, by trivial, by trivial⟩
    field_simp
    ring

/-- C2: for positive container size (Wc, Hc) and positive image natural size
(Wi, Hi), fitImageToContainer returns a rectangle with exact aspect ratio
Wi / Hi, fully contained in the container and centered in it; the 800 by 600
image in a 400 by 400 container yields (0, 50, 400, 300). -/
theorem fit_to_container_correct (Wc Hc Wi Hi : ℚ)
    (hWc : 0 < Wc) (hHc : 0 < Hc) (hWi : 0 < Wi) (hHi : 0 < Hi) :
    (fitImageToContainer Wc Hc Wi Hi).width / (fitImageToContainer Wc Hc Wi Hi).height = Wi / Hi ∧
    0 ≤ (fitImageToContainer Wc Hc Wi Hi).x ∧
    0 ≤ (fitImageToContainer Wc Hc Wi Hi).y ∧
    (fitImageToContainer Wc Hc Wi Hi).x + (fitImageToContainer Wc Hc Wi Hi).width ≤ Wc ∧
    (fitImageToContainer Wc Hc Wi Hi).y + (fitImageToContainer Wc Hc Wi Hi).height ≤ Hc ∧
    (fitImageToContainer Wc Hc Wi Hi).x = (Wc - (fitImageToContainer Wc Hc Wi Hi).width) / 2 ∧
    (fitImageToContainer Wc Hc Wi Hi).y = (Hc - (fitImageToContainer Wc Hc Wi Hi).height) / 2 ∧
    fitImageToContainer 400 400 800 600 = ⟨0, 50, 400, 300⟩ := by
  obtain ⟨p1, p2, p3, p4, p5, p6, p7⟩ := fit_general Wc Hc Wi Hi hWc hHc hWi hHi
  exact ⟨p1, p2, p3, p4, p5, p6, p7, fit_scenario⟩

/-- Witness for C2 at the scenario input 800 by 600 in 400 by 400. -/
theorem fit_to_container_correct_witness :
    (fitImageToContainer 400 400 800 600).width / (fitImageToContainer 400 400 800 600).height =
      800 / 600 ∧
    fitImageToContainer 400 400 800 600 = ⟨0, 50, 400, 300⟩ :=
  ⟨(fit_to_container_correct 400 400 800 600 (by norm_num) (by norm_num) (by norm_num)
      (by norm_num)).1,
   (fit_to_container_correct 400 400 800 600 (by norm_num) (by norm_num) (by norm_num)
      (by norm_num)).2.2.2.2.2.2.2⟩

lemma set_aspect_scenario :
    setAspectRatioRect ⟨0, 50, 400, 300⟩ 16 9 = ⟨-200/3, 50, 1600/3, 300⟩ := by
  norm_num [setAspectRatioRect, Rect.mk.injEq]

lemma set_aspect_general (idr : Rect) (w h : ℚ)
    (hw : 0 < w) (hh : 0 < h) (hdw : 0 < idr.width) (hdh : 0 < idr.height) :
    (w / h > idr.width / idr.height →
      (setAspectRatioRect idr w h).height = idr.height ∧
      (setAspectRatioRect idr w h).width = idr.height * (w / h)) ∧
    (¬(w / h > idr.width / idr.height) →
      (setAspectRatioRect idr w h).width = idr.width ∧
      (setAspectRatioRect idr w h).height = idr.width / (w / h)) ∧
    (setAspectRatioRect idr w h).x ≤ idr.x ∧
    (setAspectRatioRect idr w h).y ≤ idr.y ∧
    idr.x + idr.width ≤ (setAspectRatioRect idr w h).x + (setAspectRatioRect idr w h).width ∧
    idr.y + idr.height ≤ (setAspectRatioRect idr w h).y + (setAspectRatioRect idr w h).height := by
  have ht : 0 < w / h := div_pos hw hh
  have hdw0 : idr.width ≠ 0 := ne_of_gt hdw
  have hdh0 : idr.height ≠ 0 := ne_of_gt hdh
  simp only [setAspectRatioRect]
  split_ifs with hcase
  · -- target ratio wider than the image: keep height, grow width
    have hwgrow : idr.width ≤ idr.height * (w / h) := by
      have h1 : idr.height * (idr.width / idr.height) < idr.height * (w / h) :=
        mul_lt_mul_of_pos_left hcase hdh
      have h2 : idr.height * (idr.width / idr.height) = idr.width := by field_simp
      linarith
    refine ⟨fun _ => ⟨rfl, rfl⟩, fun hn => absurd hcase hn, by linarith, by linarith,
      by linarith, by linarith⟩
  · -- target ratio not wider: keep width, grow height
    have hle : w / h ≤ idr.width / idr.height := not_lt.mp hcase
    have hhgrow : idr.height ≤ idr.width / (w / h) := by
      have h1 : idr.width / (idr.width / idr.height) ≤ idr.width / (w / h) :=
        div_le_div_of_nonneg_left (le_of_lt hdw) ht hle
      have h2 : idr.width / (idr.width / idr.height) = idr.height := by field_simp
      linarith
    refine ⟨fun hc => absurd hc hcase, fun _ => ⟨rfl, rfl⟩, by linarith, by linarith,
      by linarith, by linarith⟩

/-- C3: for an image drawn at a rectangle with positive width and height and
a preset ratio with positive components w and h, setAspectRatioRect keeps the
height and grows the width to height * (w / h) when the target ratio exceeds
the image ratio, otherwise keeps the width and grows the height to
width / (w / h); recentered on the image rectangle's center, the result
always fully contains the image rectangle; the 16:9 preset on
(0, 50, 400, 300) keeps height 300 and grows the width to 1600 / 3. -/
theorem set_aspect_preset_contains (idr : Rect) (w h : ℚ)
    (hw : 0 < w) (hh : 0 < h) (hdw : 0 < idr.width) (hdh : 0 < idr.height) :
    (w / h > idr.width / idr.height →
      (setAspectRatioRect idr w h).height = idr.height ∧
      (setAspectRatioRect idr w h).width = idr.height * (w / h)) ∧
    (¬(w / h > idr.width / idr.height) →
      (setAspectRatioRect idr w h).width = idr.width ∧
      (setAspectRatioRect idr w h).height = idr.width / (w / h)) ∧
    (setAspectRatioRect idr w h).x ≤ idr.x ∧
    (setAspectRatioRect idr w h).y ≤ idr.y ∧
    idr.x + idr.width ≤ (setAspectRatioRect idr w h).x + (setAspectRatioRect idr w h).width ∧
    idr.y + idr.height ≤ (setAspectRatioRect idr w h).y + (setAspectRatioRect idr w h).height ∧
    setAspectRatioRect ⟨0, 50, 400, 300⟩ 16 9 = ⟨-200/3, 50, 1600/3, 300⟩ := by
  obtain ⟨p1, p2, p3, p4, p5, p6⟩ := set_aspect_general idr w h hw hh hdw hdh
  exact ⟨p1, p2, p3, p4, p5, p6, set_aspect_scenario⟩

/-- Witness for C3 at the 16:9 scenario input. -/
theorem set_aspect_preset_contains_witness :
    (setAspectRatioRect ⟨0, 50, 400, 300⟩ 16 9).x ≤ 0 ∧
    (0 : ℚ) + 400 ≤ (setAspectRatioRect ⟨0, 50, 400, 300⟩ 16 9).x +
      (setAspectRatioRect ⟨0, 50, 400, 300⟩ 16 9).width ∧
    setAspectRatioRect ⟨0, 50, 400, 300⟩ 16 9 = ⟨-200/3, 50, 1600/3, 300⟩ := by
  have hmain := set_aspect_preset_contains ⟨0, 50, 400, 300⟩ 16 9 (by norm_num) (by norm_num)
    (by norm_num) (by norm_num)
  exact ⟨hmain.2.2.1, hmain.2.2.2.2.1, hmain.2.2.2.2.2.2⟩

/-- C4: for every natural size and every imageDrawRect, the composite-mask
export canvas has exactly the image's natural pixel dimensions; the mask is
drawn under scale (naturalWidth / imageDrawRect.width,
naturalHeight / imageDrawRect.height) at offset (-imageDrawRect.x,
-imageDrawRect.y); the MIME type is image/jpeg exactly when the src data URI
declares jpeg and image/png otherwise. -/
theorem composite_export_native_scale (naturalWidth naturalHeight : ℚ)
    (imageDrawRect : Rect) (src : String) :
    (getCompositeImageWithMask naturalWidth naturalHeight imageDrawRect src).canvasWidth =
      naturalWidth ∧
    (getCompositeImageWithMask naturalWidth naturalHeight imageDrawRect src).canvasHeight =
      naturalHeight ∧
    CanvasOp.scale (naturalWidth / imageDrawRect.width) (naturalHeight / imageDrawRect.height) ∈
      (getCompositeImageWithMask naturalWidth naturalHeight imageDrawRect src).ops ∧
    CanvasOp.drawImageAt DrawSource.mask (-imageDrawRect.x) (-imageDrawRect.y) ∈
      (getCompositeImageWithMask naturalWidth naturalHeight imageDrawRect src).ops ∧
    (getCompositeImageWithMask naturalWidth naturalHeight imageDrawRect src).mimeType =
      (if strStartsWith src "data:image/jpeg" then "image/jpeg" else "image/png") := by
  refine ⟨rfl, rfl, ?_, ?_, rfl⟩ <;> simp [getCompositeImageWithMask]

/-- C10: the expanded-canvas export issues exactly one draw command - the
source image at offset (imageDrawRect.x - canvasRect.x,
imageDrawRect.y - canvasRect.y) at size imageDrawRect.width by
imageDrawRect.height; no command reads the MaskLayer, and the MIME type is
always image/png. -/
theorem expanded_export_image_only (imageDrawRect canvasRect : Rect) :
    (getFinalExpandedImage imageDrawRect canvasRect).ops =
      [CanvasOp.drawImageScaled DrawSource.image (imageDrawRect.x - canvasRect.x)
        (imageDrawRect.y - canvasRect.y) imageDrawRect.width imageDrawRect.height] ∧
    ((getFinalExpandedImage imageDrawRect canvasRect).ops.all fun op => !opUsesMask op) = true ∧
    (getFinalExpandedImage imageDrawRect canvasRect).mimeType = "image/png" := by
  exact ⟨rfl, rfl, rfl⟩

/-- C6 counterexample: from the paint tool active with a nonempty mask,
switching the active tool to expand leaves the mask untouched - the claimed
clear-on-tool-switch does not happen. -/
theorem tool_switch_keeps_mask :
    (handleToggleTool ⟨some EditTool.inpainting, [(1, 1)], "p", some "img"⟩
        EditTool.expand).activeTool = some EditTool.expand ∧
    (handleToggleTool ⟨some EditTool.inpainting, [(1, 1)], "p", some "img"⟩
        EditTool.expand).mask = [(1, 1)] := by
  constructor <;> rfl

/-- C6 amended: switching the active tool never touches the MaskLayer; the
mask is cleared only by the successful submit-for-edit path (non-blank
prompt, image loaded), after which it holds no marked points. -/
theorem mask_clear_transitions (s : EditPaneState) (tool : EditTool) (result : String)
    (hp : promptIsBlank s.prompt = false) (hi : s.image ≠ none) :
    (handleToggleTool s tool).mask = s.mask ∧
    (handleEditSuccess s result).mask = [] := by
  refine ⟨rfl, ?_⟩
  simp [handleEditSuccess, hp, hi]

/-- Witness for C6 amended at a concrete editing state. -/
theorem mask_clear_transitions_witness :
    (handleToggleTool ⟨some EditTool.inpainting, [(1, 1)], "p", some "img"⟩
        EditTool.resize).mask = [(1, 1)] ∧
    (handleEditSuccess ⟨some EditTool.inpainting, [(1, 1)], "p", some "img"⟩ "res").mask = [] :=
  mask_clear_transitions ⟨some EditTool.inpainting, [(1, 1)], "p", some "img"⟩
    EditTool.resize "res" (by decide) (by decide)

/-- C7 counterexample: at input hardness 0 the middle gradient stop of
drawSoftCircle sits at offset exactly 0 - the clamp is max 0 hardness, not a
minimum strictly above 0. -/
theorem soft_circle_zero_hardness_stop :
    ((drawSoftCircle 40 (7/10) 0 0 0).stops.get? 1).map Prod.fst = some 0 := by
  simp [drawSoftCircle]

/-- C7 amended: drawSoftCircle paints a radial gradient of radius
brushSize / 2, solid at alpha opacity from offset 0 to offset
max 0 hardness and fading to transparent at offset 1; the effective
hardness stop is clamped below at 0 - nonnegative, but equal to exactly 0
when the input hardness is ≤ 0 (as at input hardness 0). -/
theorem soft_circle_gradient_stops (brushSize brushOpacity brushHardness x y : ℚ) :
    (drawSoftCircle brushSize brushOpacity brushHardness x y).radius = brushSize / 2 ∧
    (drawSoftCircle brushSize brushOpacity brushHardness x y).stops =
      [(0, brushOpacity), (max 0 brushHardness, brushOpacity), (1, 0)] ∧
    0 ≤ max (0 : ℚ) brushHardness ∧
    (drawSoftCircle brushSize brushOpacity 0 x y).stops.get? 1 = some (0, brushOpacity) := by
  refine ⟨rfl, rfl, le_max_left 0 brushHardness, ?_⟩
  simp [drawSoftCircle]

lemma drawLoopAux_ge (dist s : ℚ) (hs : 1 ≤ s) :
    ∀ fuel : ℕ, ∀ i : ℚ, dist - i ≤ (fuel : ℚ) →
      (dist - i) / s ≤ (drawLoopAux fuel i dist s : ℚ) := by
  have hs0 : 0 < s := lt_of_lt_of_le one_pos hs
  intro fuel
  induction fuel with
  | zero =>
    intro i hle
    simp only [drawLoopAux, Nat.cast_zero] at hle ⊢
    exact (div_le_iff₀ hs0).mpr (by linarith)
  | succ fuel ih =>
    intro i hle
    simp only [drawLoopAux]
    split_ifs with hlt
    · have hrec := ih (i + s) (by push_cast at hle ⊢; linarith)
      have key : (dist - i) / s = (dist - (i + s)) / s + 1 := by
        field_simp
        ring
      push_cast
      push_cast at hrec
      linarith
    · push_cast
      exact (div_le_iff₀ hs0).mpr (by nlinarith [not_lt.mp hlt])

/-- C8 counterexample: with brushSize 5 the two points (0, 0) and (6, 0) are
farther apart than the brush diameter 5, yet the segment stamps only 7
circles - fewer than distance / (brushSize / 10) = 12, because the loop step
is max 1 (brushSize / 10) = 1, not brushSize / 10. -/
theorem stroke_count_bound_fails :
    drawStampCount 5 6 = 7 ∧ (5 : ℚ) < 6 ∧
      ¬((6 : ℚ) / (5 / 10) ≤ (drawStampCount 5 6 : ℚ)) := by
  have h7 : drawStampCount 5 6 = 7 := by
    have hstep : strokeStep 5 = 1 := by
      rw [strokeStep, max_eq_left (by norm_num : (5 : ℚ) / 10 ≤ 1)]
    have hceil : ⌈(6 : ℚ)⌉₊ = 6 := rfl
    rw [drawStampCount, hstep, hceil]
    norm_num [drawLoopAux]
  refine ⟨h7, by norm_num, ?_⟩
  rw [h7]
  norm_num

/-- C8 amended: the stroke segment stamps at step max 1 (brushSize / 10)
along the path plus one final stamp at the end point, so for every segment
length the number of stamped circles is at least
distance / max 1 (brushSize / 10); the spec's bound
distance / (brushSize / 10) holds whenever brushSize ≥ 10 (when the step is
exactly brushSize / 10). -/
theorem stroke_count_lower_bound (brushSize dist : ℚ) :
    dist / strokeStep brushSize ≤ (drawStampCount brushSize dist : ℚ) ∧
    (10 ≤ brushSize → dist / (brushSize / 10) ≤ (drawStampCount brushSize dist : ℚ)) := by
  have hs : (1 : ℚ) ≤ strokeStep brushSize := le_max_left _ _
  have hfuel : dist - 0 ≤ ((⌈dist⌉₊ + 1 : ℕ) : ℚ) := by
    push_cast
    have := Nat.le_ceil dist
    linarith
  have hmain := drawLoopAux_ge dist (strokeStep brushSize) hs (⌈dist⌉₊ + 1) 0 hfuel
  rw [sub_zero] at hmain
  have hcount : dist / strokeStep brushSize ≤ (drawStampCount brushSize dist : ℚ) := by
    rw [drawStampCount]
    push_cast
    linarith
  refine ⟨hcount, fun hb => ?_⟩
  have hstep : strokeStep brushSize = brushSize / 10 :=
    max_eq_right ((one_le_div (by norm_num : (0 : ℚ) < 10)).mpr (by linarith))
  rwa [hstep] at hcount

/-- Witness for C8 amended with brushSize 20 and distance 6. -/
theorem stroke_count_lower_bound_witness :
    (10 : ℚ) ≤ 20 ∧ (6 : ℚ) / (20 / 10) ≤ (drawStampCount 20 6 : ℚ) :=
  ⟨by norm_num, (stroke_count_lower_bound 20 6).2 (by norm_num)⟩
